import Mathlib

/-!
Verification of the session-lifecycle controller and frame-rendering
scheduler in `src/mame.c` (mame2003_midway).

Shallow embedding conventions:
- C `int` values are modelled as `Int`; C integer division truncates toward
  zero, which is `Int.tdiv` in Lean (the `/` notation on `Int` is Euclidean
  division, so we never use it for embedded C arithmetic).
- Stateful code is modelled by explicit state passing; calls into external
  collaborators (the video-update callback, `fillbitmap`,
  `cpu_compute_scanline_timing`, `printf`, resource acquisition/release)
  are recorded as events or counters in the returned state.
-/

/-! ### Screen rendering and management (`mame.c` lines 946-1058)

A `rectangle` as used by `Machine->visible_area` / the clip rectangle. -/

structure Rect where
  min_x : Int
  max_x : Int
  min_y : Int
  max_y : Int
deriving DecidableEq, Repr

/-- The video-updating statics of `mame.c`: `last_partial_scanline`,
`full_refresh_pending` and `performance.partial_updates_this_frame`. -/
structure RenderState where
  last_partial_scanline : Int
  full_refresh_pending : Bool
  partial_updates_this_frame : Nat
deriving DecidableEq, Repr

/-- Observable external effects of one `force_partial_update` call:
whether `fillbitmap(scrbitmap, get_black_pen(), NULL)` ran, and the clip
rectangle passed to `(*Machine->drv->video_update)`, if it was invoked. -/
structure UpdateEffects where
  filled : Bool
  rendered : Option Rect
deriving DecidableEq, Repr

/-- Embedding of `force_partial_update(scanline)` (`mame.c:1003-1039`).
`skip` is the value returned by the external `osd_skip_this_frame()`;
`vis` is `Machine->visible_area`. -/
def force_partial_update (skip : Bool) (vis : Rect) (scanline : Int)
    (st : RenderState) : RenderState × UpdateEffects :=
  -- if skipping this frame, bail
  if skip then (st, ⟨false, none⟩)
  -- skip if less than the lowest so far
  else if scanline < st.last_partial_scanline then (st, ⟨false, none⟩)
  else
    -- if there's a dirty bitmap and we didn't do any partial updates yet
    let doFill := st.full_refresh_pending ∧ st.last_partial_scanline = 0
    let st1 : RenderState :=
      if doFill then { st with full_refresh_pending := false } else st
    -- set the start/end scanlines
    let clipMinY : Int :=
      if vis.min_y < st1.last_partial_scanline then st1.last_partial_scanline
      else vis.min_y
    let clipMaxY : Int :=
      if scanline < vis.max_y then scanline else vis.max_y
    -- render if necessary, then remember where we left off
    if clipMinY ≤ clipMaxY then
      ({ st1 with
          last_partial_scanline := scanline + 1,
          partial_updates_this_frame := st1.partial_updates_this_frame + 1 },
       ⟨decide doFill, some ⟨vis.min_x, vis.max_x, clipMinY, clipMaxY⟩⟩)
    else
      ({ st1 with last_partial_scanline := scanline + 1 },
       ⟨decide doFill, none⟩)

/-- Embedding of `schedule_full_refresh` (`mame.c:977-980`). -/
def schedule_full_refresh (st : RenderState) : RenderState :=
  { st with full_refresh_pending := true }

/-- Embedding of `reset_partial_updates` (`mame.c:989-993`). -/
def reset_partial_updates (st : RenderState) : RenderState :=
  { st with last_partial_scanline := 0, partial_updates_this_frame := 0 }

/-- C3: in a non-skipped call with `last_partial_scanline ≤ s`:
the bitmap is filled and the pending flag cleared exactly under the
stated condition; the clip is `[max(lps, vis.min_y), min(s, vis.max_y)]`;
the callback runs and the counter is incremented exactly when that range
is non-empty; and `last_partial_scanline = s + 1` afterwards. -/
theorem C3_force_partial_update_step (vis : Rect) (s : Int) (st : RenderState)
    (hs : st.last_partial_scanline ≤ s) :
    ((st.full_refresh_pending = true ∧ st.last_partial_scanline = 0) →
      ((force_partial_update false vis s st).2.filled = true ∧
       (force_partial_update false vis s st).1.full_refresh_pending = false)) ∧
    (¬ (st.full_refresh_pending = true ∧ st.last_partial_scanline = 0) →
      ((force_partial_update false vis s st).2.filled = false ∧
       (force_partial_update false vis s st).1.full_refresh_pending
         = st.full_refresh_pending)) ∧
    (∀ r, (force_partial_update false vis s st).2.rendered = some r →
      r.min_y = max st.last_partial_scanline vis.min_y ∧
      r.max_y = min s vis.max_y) ∧
    ((max st.last_partial_scanline vis.min_y ≤ min s vis.max_y) ↔
      ((force_partial_update false vis s st).2.rendered.isSome = true ∧
       (force_partial_update false vis s st).1.partial_updates_this_frame
         = st.partial_updates_this_frame + 1)) ∧
    (¬ (max st.last_partial_scanline vis.min_y ≤ min s vis.max_y) →
      ((force_partial_update false vis s st).2.rendered = none ∧
       (force_partial_update false vis s st).1.partial_updates_this_frame
         = st.partial_updates_this_frame)) ∧
    (force_partial_update false vis s st).1.last_partial_scanline = s + 1 := by
  simp only [force_partial_update, if_neg (Bool.false_ne_true), if_neg (not_lt.mpr hs)]
  by_cases hfill : st.full_refresh_pending = true ∧ st.last_partial_scanline = 0 <;>
    simp only [hfill, if_pos, if_neg, decide_eq_true_eq, decide_eq_false_iff_not,
      not_true, not_false_iff, ite_true, ite_false] <;>
  · split_ifs with h1 h2 h2 <;>
      refine ⟨?_, ?_, ?_, ?_, ?_, ?_⟩ <;>
      simp_all [max_def, min_def] <;> omega

/-- Witness for C3 at concrete inputs. -/
theorem C3_force_partial_update_step_witness :
    ((⟨0, true, 0⟩ : RenderState).last_partial_scanline ≤ 5) ∧
    ((force_partial_update false ⟨0, 10, 0, 7⟩ 5 ⟨0, true, 0⟩).1.last_partial_scanline
      = 6) := by
  have h := C3_force_partial_update_step ⟨0, 10, 0, 7⟩ 5 ⟨0, true, 0⟩ (by decide)
  exact ⟨by decide, h.2.2.2.2.2⟩

/-! ### C4: idempotence / monotonicity of repeated partial updates -/

/-- Run a sequence of `force_partial_update` calls within one frame
(`osd_skip_this_frame()` is a per-frame decision, hence one `skip` value),
returning the final state and how many calls invoked the video-update
callback. -/
def run_updates (skip : Bool) (vis : Rect) :
    RenderState → List Int → RenderState × Nat
  | st, [] => (st, 0)
  | st, s :: rest =>
    let p := force_partial_update skip vis s st
    let q := run_updates skip vis p.1 rest
    (q.1, (if p.2.rendered.isSome then 1 else 0) + q.2)

/-- A skipped call changes nothing and renders nothing. -/
theorem force_partial_update_skip (vis : Rect) (s : Int) (st : RenderState) :
    force_partial_update true vis s st = (st, ⟨false, none⟩) := by
  simp [force_partial_update]

/-- A stale request (`s < last_partial_scanline`) is a silent no-op. -/
theorem force_partial_update_stale (vis : Rect) (s : Int) (st : RenderState)
    (h : s < st.last_partial_scanline) :
    force_partial_update false vis s st = (st, ⟨false, none⟩) := by
  simp [force_partial_update, h]

/-- The field `last_partial_scanline` never decreases across one call. -/
theorem force_partial_update_mono (skip : Bool) (vis : Rect) (s : Int)
    (st : RenderState) :
    st.last_partial_scanline
      ≤ (force_partial_update skip vis s st).1.last_partial_scanline := by
  simp only [force_partial_update]
  split_ifs <;> simp_all <;> omega

/-- A non-stale, non-skipped call advances `last_partial_scanline` to `s+1`. -/
theorem force_partial_update_advance (vis : Rect) (s : Int) (st : RenderState)
    (h : st.last_partial_scanline ≤ s) :
    (force_partial_update false vis s st).1.last_partial_scanline = s + 1 := by
  simp only [force_partial_update]
  split_ifs <;> simp_all <;> omega

/-- If every requested scanline is stale, the whole sequence is a no-op. -/
theorem run_updates_all_stale (skip : Bool) (vis : Rect) (calls : List Int)
    (st : RenderState) (h : ∀ c ∈ calls, c < st.last_partial_scanline) :
    run_updates skip vis st calls = (st, 0) := by
  induction calls with
  | nil => rfl
  | cons c rest ih =>
    have hnoop : force_partial_update skip vis c st = (st, ⟨false, none⟩) := by
      cases skip
      · exact force_partial_update_stale vis c st (h c (List.mem_cons_self c rest))
      · exact force_partial_update_skip vis c st
    simp [run_updates, hnoop, ih (fun d hd => h d (List.mem_cons_of_mem c hd))]

/-- The field `last_partial_scanline` never decreases across a sequence. -/
theorem run_updates_mono (skip : Bool) (vis : Rect) (calls : List Int)
    (st : RenderState) :
    st.last_partial_scanline
      ≤ (run_updates skip vis st calls).1.last_partial_scanline := by
  induction calls generalizing st with
  | nil => exact le_refl _
  | cons c rest ih =>
    calc st.last_partial_scanline
        ≤ (force_partial_update skip vis c st).1.last_partial_scanline :=
          force_partial_update_mono skip vis c st
      _ ≤ _ := by simpa [run_updates] using ih (force_partial_update skip vis c st).1

/-- C4: (i) two successive calls with the same scanline render at most once
in total; (ii) in a sequence whose scanline arguments strictly decrease
after the first call, no call after the first renders; (iii) across any call
sequence within a frame, `last_partial_scanline` never decreases. -/
theorem C4_force_partial_update_replay :
    (∀ (skip : Bool) (vis : Rect) (s : Int) (st : RenderState),
      (run_updates skip vis st [s, s]).2 ≤ 1) ∧
    (∀ (skip : Bool) (vis : Rect) (s : Int) (rest : List Int) (st : RenderState),
      List.Pairwise (fun a b => b < a) (s :: rest) →
      (run_updates skip vis (force_partial_update skip vis s st).1 rest).2 = 0) ∧
    (∀ (skip : Bool) (vis : Rect) (calls : List Int) (st : RenderState),
      st.last_partial_scanline
        ≤ (run_updates skip vis st calls).1.last_partial_scanline) := by
  refine ⟨?_, ?_, run_updates_mono⟩
  · intro skip vis s st
    cases skip with
    | true => simp [run_updates, force_partial_update_skip]
    | false =>
      have hadv : s < (force_partial_update false vis s st).1.last_partial_scanline := by
        by_cases hst : st.last_partial_scanline ≤ s
        · rw [force_partial_update_advance vis s st hst]; omega
        · rw [force_partial_update_stale vis s st (by omega)]
          show s < st.last_partial_scanline
          omega
      have hs2 := force_partial_update_stale vis s
        (force_partial_update false vis s st).1 hadv
      simp only [run_updates, hs2]
      split <;> simp
  · intro skip vis s rest st hpw
    have hlt : ∀ c ∈ rest, c < s := (List.pairwise_cons.mp hpw).1
    cases skip with
    | true =>
      have hall : ∀ (l : List Int) (st' : RenderState),
          run_updates true vis st' l = (st', 0) := by
        intro l
        induction l with
        | nil => intro st'; rfl
        | cons c r ih => intro st'; simp [run_updates, force_partial_update_skip, ih]
      rw [hall rest _]
    | false =>
      have hadv : s < (force_partial_update false vis s st).1.last_partial_scanline := by
        by_cases hst : st.last_partial_scanline ≤ s
        · rw [force_partial_update_advance vis s st hst]; omega
        · rw [force_partial_update_stale vis s st (by omega)]
          show s < st.last_partial_scanline
          omega
      rw [run_updates_all_stale false vis rest _
        (fun c hc => lt_trans (hlt c hc) hadv)]

/-- Witness for C4 at concrete inputs. -/
theorem C4_force_partial_update_replay_witness :
    (run_updates false ⟨0, 10, 0, 7⟩ ⟨0, false, 0⟩ [4, 4]).2 ≤ 1 ∧
    (run_updates false ⟨0, 10, 0, 7⟩
      (force_partial_update false ⟨0, 10, 0, 7⟩ 6 ⟨0, false, 0⟩).1 [4, 2]).2 = 0 := by
  refine ⟨C4_force_partial_update_replay.1 false _ 4 _, ?_⟩
  exact C4_force_partial_update_replay.2.1 false _ 6 [4, 2] _ (by decide)

/-! ### C5: `set_visible_area` (`mame.c:946-968`) -/

/-- The state touched by `set_visible_area`: the two visible-area copies in
the `Machine` struct, the `visible_area_changed` dirty flag, and a counter
of calls to the external `cpu_compute_scanline_timing()`. -/
structure VisAreaState where
  visible_area : Rect
  absolute_visible_area : Rect
  visible_area_changed : Bool
  scanline_timing_recomputes : Nat
deriving DecidableEq, Repr

/-- Embedding of `set_visible_area(min_x, max_x, min_y, max_y)`. -/
def set_visible_area (min_x max_x min_y max_y : Int)
    (st : VisAreaState) : VisAreaState :=
  if st.visible_area.min_x = min_x ∧ st.visible_area.max_x = max_x ∧
     st.visible_area.min_y = min_y ∧ st.visible_area.max_y = max_y then
    st
  else
    { visible_area := ⟨min_x, max_x, min_y, max_y⟩,
      absolute_visible_area := ⟨min_x, max_x, min_y, max_y⟩,
      visible_area_changed := true,
      scanline_timing_recomputes := st.scanline_timing_recomputes + 1 }

/-- C5: a call with all four bounds equal to the current visible area leaves
the state unchanged (in particular, no scanline-timing recomputation); a
call with at least one differing bound sets the dirty flag, installs the new
bounds in both copies (so the two copies are equal afterwards), and triggers
exactly one recomputation.  Moreover, if the two copies agree before a call,
they agree after it. -/
theorem C5_set_visible_area (min_x max_x min_y max_y : Int) (st : VisAreaState) :
    (st.visible_area = ⟨min_x, max_x, min_y, max_y⟩ →
      set_visible_area min_x max_x min_y max_y st = st) ∧
    (st.visible_area ≠ ⟨min_x, max_x, min_y, max_y⟩ →
      ((set_visible_area min_x max_x min_y max_y st).visible_area_changed = true ∧
       (set_visible_area min_x max_x min_y max_y st).visible_area
         = ⟨min_x, max_x, min_y, max_y⟩ ∧
       (set_visible_area min_x max_x min_y max_y st).absolute_visible_area
         = ⟨min_x, max_x, min_y, max_y⟩ ∧
       (set_visible_area min_x max_x min_y max_y st).scanline_timing_recomputes
         = st.scanline_timing_recomputes + 1)) ∧
    (st.absolute_visible_area = st.visible_area →
      (set_visible_area min_x max_x min_y max_y st).absolute_visible_area
        = (set_visible_area min_x max_x min_y max_y st).visible_area) := by
  obtain ⟨⟨a, b, c, d⟩, abs, dirty, n⟩ := st
  refine ⟨?_, ?_, ?_⟩ <;>
    · intro h
      simp only [set_visible_area]
      split_ifs with hc
      · simp_all
      · simp_all [Rect.mk.injEq]
        try tauto

/-- Witness for C5 at concrete inputs (one no-op call, one real change). -/
theorem C5_set_visible_area_witness :
    (set_visible_area 0 3 0 2 ⟨⟨0, 3, 0, 2⟩, ⟨0, 3, 0, 2⟩, false, 0⟩
       = ⟨⟨0, 3, 0, 2⟩, ⟨0, 3, 0, 2⟩, false, 0⟩) ∧
    (set_visible_area 1 4 0 2 ⟨⟨0, 3, 0, 2⟩, ⟨0, 3, 0, 2⟩, false, 0⟩).scanline_timing_recomputes
       = 1 := by
  refine ⟨(C5_set_visible_area 0 3 0 2 _).1 (by decide), ?_⟩
  exact ((C5_set_visible_area 1 4 0 2 _).2.1 (by decide)).2.2.2

/-! ### C9: `mame_chd_open` (`mame.c:1362-1383`) -/

/-- A `GameDriver` as far as `mame_chd_open` consults it: the driver name
and the `clone_of` ancestry chain (`clone` has a parent, `base` has
`clone_of == NULL`). -/
inductive GameDrv where
  | base (name : String)
  | clone (name : String) (parent : GameDrv)
deriving DecidableEq, Repr

/-- The driver's `name` field. -/
def GameDrv.drvName : GameDrv → String
  | .base n => n
  | .clone n _ => n

/-- The `clone_of` ancestry chain starting at (and including) a driver. -/
def GameDrv.ancestry : GameDrv → List GameDrv
  | .base n => [.base n]
  | .clone n p => .clone n p :: p.ancestry

/-- The file types `mame_chd_open` passes to `mame_fopen`:
`FILETYPE_IMAGE` and `FILETYPE_IMAGE_DIFF`. -/
inductive ChdFileType where
  | image
  | imageDiff
deriving DecidableEq, Repr

/-- One `mame_fopen` call issued by `mame_chd_open`: the game-name argument
(`NULL` for the diff area), the file type and the write flag. -/
structure OpenAttempt where
  gameName : Option String
  fileType : ChdFileType
  forWrite : Bool
deriving DecidableEq, Repr

/-- The read-only chain walk of `mame_chd_open`:
`for (drv = Machine->gamedrv; drv != NULL; drv = drv->clone_of)` -- try
`mame_fopen(drv->name, filename, FILETYPE_IMAGE, 0)`, return the first
non-NULL handle, or NULL if the chain is exhausted.  `fopen` is the
external storage backend; handles are modelled as `Nat`.  The second
component logs every `mame_fopen` call made. -/
def chd_open_chain (fopen : Option String → String → ChdFileType → Bool → Option Nat)
    (filename : String) : GameDrv → Option Nat × List OpenAttempt
  | .base n =>
    (fopen (some n) filename .image false, [⟨some n, .image, false⟩])
  | .clone n p =>
    match fopen (some n) filename .image false with
    | some f => (some f, [⟨some n, .image, false⟩])
    | none =>
      let q := chd_open_chain fopen filename p
      (q.1, ⟨some n, .image, false⟩ :: q.2)

/-- Embedding of `mame_chd_open(filename, mode)`.  The mode is a C string
(list of characters); the read-only test is
`mode[0] == 'r' && !strchr(mode, '+')`. -/
def mame_chd_open (fopen : Option String → String → ChdFileType → Bool → Option Nat)
    (gamedrv : GameDrv) (filename : String) (mode : List Char) :
    Option Nat × List OpenAttempt :=
  if mode.head? = some 'r' ∧ ¬ mode.contains '+' then
    chd_open_chain fopen filename gamedrv
  else
    (fopen none filename .imageDiff true, [⟨none, .imageDiff, true⟩])

/-- The chain walk returns the first non-null handle along the ancestry. -/
theorem chd_open_chain_eq_findSome
    (fopen : Option String → String → ChdFileType → Bool → Option Nat)
    (filename : String) (d : GameDrv) :
    (chd_open_chain fopen filename d).1
      = d.ancestry.findSome? (fun a => fopen (some a.drvName) filename .image false) := by
  induction d with
  | base n =>
    cases h : fopen (some n) filename ChdFileType.image false <;>
      simp [chd_open_chain, GameDrv.ancestry, GameDrv.drvName, List.findSome?, h]
  | clone n p ih =>
    simp only [chd_open_chain, GameDrv.ancestry, GameDrv.drvName, List.findSome?]
    cases fopen (some n) filename .image false with
    | some f => rfl
    | none => simpa using ih

/-- The chain walk consults exactly the ancestry, in order, read-only. -/
theorem chd_open_chain_attempts
    (fopen : Option String → String → ChdFileType → Bool → Option Nat)
    (filename : String) (d : GameDrv) :
    ∀ a ∈ (chd_open_chain fopen filename d).2,
      a.fileType = ChdFileType.image ∧ a.forWrite = false ∧
      ∃ anc ∈ d.ancestry, a.gameName = some anc.drvName := by
  induction d with
  | base n =>
    intro a ha
    simp only [chd_open_chain, List.mem_singleton] at ha
    subst ha
    exact ⟨rfl, rfl, .base n, by simp [GameDrv.ancestry, GameDrv.drvName]⟩
  | clone n p ih =>
    intro a ha
    simp only [chd_open_chain] at ha
    rcases hcase : fopen (some n) filename .image false with _ | f
    · rw [hcase] at ha
      simp only [List.mem_cons] at ha
      rcases ha with ha | ha
      · subst ha
        exact ⟨rfl, rfl, .clone n p, by simp [GameDrv.ancestry, GameDrv.drvName]⟩
      · obtain ⟨h1, h2, anc, hanc, h3⟩ := ih a ha
        exact ⟨h1, h2, anc, by simp [GameDrv.ancestry, hanc], h3⟩
    · rw [hcase] at ha
      simp only [List.mem_singleton] at ha
      subst ha
      exact ⟨rfl, rfl, .clone n p, by simp [GameDrv.ancestry, GameDrv.drvName]⟩

/-- C9: with a read-only mode (`mode[0] == 'r'`, no `'+'`), `mame_chd_open`
walks the clone-of ancestry from the active driver and returns the first
non-null handle (null if the chain is exhausted), consulting only the
chain, read-only; with any other mode it issues exactly one open, for the
differencing area, and returns its result. -/
theorem C9_mame_chd_open
    (fopen : Option String → String → ChdFileType → Bool → Option Nat)
    (gamedrv : GameDrv) (filename : String) (mode : List Char) :
    ((mode.head? = some 'r' ∧ ¬ mode.contains '+') →
      ((mame_chd_open fopen gamedrv filename mode).1
        = gamedrv.ancestry.findSome?
            (fun a => fopen (some a.drvName) filename .image false) ∧
       ∀ a ∈ (mame_chd_open fopen gamedrv filename mode).2,
         a.fileType = ChdFileType.image ∧ a.forWrite = false ∧
         ∃ anc ∈ gamedrv.ancestry, a.gameName = some anc.drvName)) ∧
    (¬ (mode.head? = some 'r' ∧ ¬ mode.contains '+') →
      mame_chd_open fopen gamedrv filename mode
        = (fopen none filename .imageDiff true, [⟨none, .imageDiff, true⟩])) := by
  constructor
  · intro h
    rw [mame_chd_open, if_pos h]
    exact ⟨chd_open_chain_eq_findSome fopen filename gamedrv,
      chd_open_chain_attempts fopen filename gamedrv⟩
  · intro h
    rw [mame_chd_open, if_neg h]

/-- Witness for C9: a clone whose own image is missing falls through to its
parent's image; a read/write open goes to the diff area. -/
theorem C9_mame_chd_open_witness :
    (mame_chd_open
      (fun g _ _ _ => if g = some "parent" then some 7 else none)
      (.clone "child" (.base "parent")) "disk" ['r', 'b']).1 = some 7 ∧
    (mame_chd_open
      (fun g _ _ _ => if g = some "parent" then some 7 else none)
      (.clone "child" (.base "parent")) "disk" ['w']).1 = none := by
  constructor
  · rw [(C9_mame_chd_open
      (fun g _ _ _ => if g = some "parent" then some 7 else none)
      (.clone "child" (.base "parent")) "disk" ['r', 'b']).1 (by decide) |>.1]
    decide
  · rw [(C9_mame_chd_open
      (fun g _ _ _ => if g = some "parent" then some 7 else none)
      (.clone "child" (.base "parent")) "disk" ['w']).2 (by decide)]
    decide

/-! ### C10: `compute_aspect_ratio` (`mame.c:793-808`) -/

/-- The slice of `InternalMachineDriver` that `compute_aspect_ratio` reads.
`video_dual_monitor` models the `VIDEO_DUAL_MONITOR` bit of
`video_attributes` (the bit constants live in a header outside `src/`;
the spec describes `video_attributes` as a set of flags, so each flag is a
`Bool` field here). -/
structure AspectDrv where
  aspect_x : Int
  aspect_y : Int
  video_dual_monitor : Bool
deriving DecidableEq, Repr

/-- Embedding of `compute_aspect_ratio(drv, &aspect_x, &aspect_y)`.
`aspect_x`/`aspect_y` are the values of the output variables before the
call (the C caller passes uninitialized locals); the result is their
values after the call.  Note the source guards the default branch with
`!(drv->video_attributes & VIDEO_DUAL_MONITOR)`, so when the dual-monitor
flag is set and no explicit aspect is declared, NEITHER output is
assigned -- the `? 6 : 3` ternary inside that branch can never produce 6. -/
def compute_aspect_ratio (drv : AspectDrv) (aspect_x aspect_y : Int) :
    Int × Int :=
  if drv.aspect_x ≠ 0 ∧ drv.aspect_y ≠ 0 then
    (drv.aspect_x, drv.aspect_y)
  else if ¬ drv.video_dual_monitor then
    (4, if drv.video_dual_monitor then 6 else 3)
  else
    (aspect_x, aspect_y)

/-- C10 is a code bug: the claim says a driver without explicit aspect
values but with the dual-monitor attribute yields 4:6; the code leaves the
caller's uninitialized output variables untouched in that case (and can
never produce 4:6), because the added `!(attributes & VIDEO_DUAL_MONITOR)`
guard makes the `? 6 : 3` ternary's 6-branch unreachable.  Evaluations:
explicit aspect and the 4:3 default behave as claimed; the dual-monitor
default does not. -/
theorem C10_compute_aspect_ratio_dual_monitor_bug :
    compute_aspect_ratio ⟨7, 3, false⟩ 11 22 = (7, 3) ∧
    compute_aspect_ratio ⟨0, 0, false⟩ 11 22 = (4, 3) ∧
    compute_aspect_ratio ⟨0, 0, true⟩ 11 22 = (11, 22) ∧
    compute_aspect_ratio ⟨0, 0, true⟩ 11 22 ≠ (4, 6) := by
  decide

/-! ### C7/C8: `decode_graphics` (`mame.c:860-930`) -/

/-- Modelled from the spec: a `GfxLayout` field value is either a literal
or a fraction of the region's bit length.  In the source a single `int`
doubles as literal-or-fraction through the `IS_FRAC`/`FRAC_NUM`/`FRAC_DEN`/
`FRAC_OFFSET` sentinel bit encoding, whose macros live in a header outside
`src/`; the spec's design notes direct that this be modelled as a tagged
variant `Literal(int) | Fraction(num,den)` with a fixed base offset. -/
inductive LayoutVal where
  | lit (v : Int)
  | frac (off num den : Int)
deriving DecidableEq, Repr

/-- Modelled from the spec: the sentinel value a plane-0 offset takes in
"raw" addressing mode (`GFX_RAW` is defined in a header outside `src/`;
only its role as a sentinel matters here). -/
def GFX_RAW : Int := 0x12345678

/-- The fields of `struct GfxLayout` that `decode_graphics` reads/writes. -/
structure GfxLayout where
  width : Int
  height : Int
  total : LayoutVal
  planeoffset : List LayoutVal
  xoffset : List LayoutVal
  yoffset : List LayoutVal
  charincrement : Int
deriving DecidableEq, Repr

/-- The `glcopy` after fraction resolution: every field a concrete `Int`. -/
structure ResolvedGfxLayout where
  width : Int
  height : Int
  total : Int
  planeoffset : List Int
  xoffset : List Int
  yoffset : List Int
  charincrement : Int
deriving DecidableEq, Repr

/-- Fraction resolution for a plane/X/Y offset (`mame.c:880-897`):
`FRAC_OFFSET(value) + region_length * FRAC_NUM(value) / FRAC_DEN(value)`
(C integer division, truncation toward zero). -/
def resolveVal (region_length : Int) : LayoutVal → Int
  | .lit v => v
  | .frac off num den => off + Int.tdiv (region_length * num) den

/-- Fraction resolution for the element count (`mame.c:876-877`):
`region_length / charincrement * FRAC_NUM(total) / FRAC_DEN(total)`
(left-to-right as in C: `((L / inc) * num) / den`). -/
def resolveTotal (region_length charincrement : Int) : LayoutVal → Int
  | .lit v => v
  | .frac _ num den =>
    Int.tdiv (Int.tdiv region_length charincrement * num) den

/-- The fraction-conversion phase of one `decode_graphics` loop iteration
(`mame.c:867-897`): `region_length = 8 * memory_region_length(...)`,
then the count and every plane/X/Y offset are resolved. -/
def resolveFractions (regionBytes : Nat) (gl : GfxLayout) : ResolvedGfxLayout :=
  let region_length : Int := 8 * regionBytes
  { width := gl.width,
    height := gl.height,
    total := resolveTotal region_length gl.charincrement gl.total,
    planeoffset := gl.planeoffset.map (resolveVal region_length),
    xoffset := gl.xoffset.map (resolveVal region_length),
    yoffset := gl.yoffset.map (resolveVal region_length),
    charincrement := gl.charincrement }

/-- Whether the last element's highest addressed byte stays inside the
region (`mame.c:908-910`): `elementbase = base + (total-1)*charincrement/8`,
`lastpixelbase = elementbase + height*yoffset[0]/8 - 1`, fits iff
`lastpixelbase < end`. -/
def raw_last_fits (base endB charincrement height yoff0 total : Int) : Bool :=
  base + Int.tdiv ((total - 1) * charincrement) 8
    + Int.tdiv (height * yoff0) 8 - 1 < endB

/-- The raw-mode truncation loop (`mame.c:906-913`), with explicit fuel.
Each iteration either breaks (footprint fits), exits (`total ≤ 0`), or
decrements `total` by one, so `total.toNat` steps of fuel always suffice. -/
def rawTruncGo (base endB charincrement height yoff0 : Int) :
    Nat → Int → Int
  | 0, total => total
  | fuel + 1, total =>
    if 0 < total then
      if raw_last_fits base endB charincrement height yoff0 total then total
      else rawTruncGo base endB charincrement height yoff0 fuel (total - 1)
    else total

/-- The loop `while (glcopy.total > 0) { ...; glcopy.total--; }` of
`mame.c:906-913`. -/
def rawTruncate (base endB charincrement height yoff0 total : Int) : Int :=
  rawTruncGo base endB charincrement height yoff0 total.toNat total

/-- One `decode_graphics` loop iteration up to the call of `decodegfx`
(`mame.c:867-914`): fraction resolution followed by the raw-mode count
truncation, where `base = gfxdecodeinfo[i].start` and
`end = region_length/8` (the region's byte length). -/
def decode_element_layout (regionBytes : Nat) (start : Int)
    (gl : GfxLayout) : ResolvedGfxLayout :=
  let glcopy := resolveFractions regionBytes gl
  if glcopy.planeoffset.head? = some GFX_RAW then
    { glcopy with
        total := rawTruncate start regionBytes glcopy.charincrement
          glcopy.height (glcopy.yoffset.head?.getD 0) glcopy.total }
  else
    glcopy

/-- C7: fraction-tagged fields are resolved with exact integer arithmetic
in the division order of the source: a fractional count becomes
`L / charincrement * num / den` and a fractional plane/X/Y offset becomes
`base_offset + L * num / den`, with `L = 8 * regionBytes`; in particular a
fractional total of 1/4 with increment 8 resolves to `L/8 * 1/4`. -/
theorem C7_decode_graphics_fraction_arithmetic
    (regionBytes : Nat) (gl : GfxLayout) (off num den : Int) (j : Nat) :
    (gl.total = .frac off num den →
      (resolveFractions regionBytes gl).total
        = Int.tdiv (Int.tdiv (8 * regionBytes) gl.charincrement * num) den) ∧
    (gl.planeoffset[j]? = some (.frac off num den) →
      (resolveFractions regionBytes gl).planeoffset[j]?
        = some (off + Int.tdiv ((8 * regionBytes) * num) den)) ∧
    (gl.xoffset[j]? = some (.frac off num den) →
      (resolveFractions regionBytes gl).xoffset[j]?
        = some (off + Int.tdiv ((8 * regionBytes) * num) den)) ∧
    (gl.yoffset[j]? = some (.frac off num den) →
      (resolveFractions regionBytes gl).yoffset[j]?
        = some (off + Int.tdiv ((8 * regionBytes) * num) den)) ∧
    (gl.total = .frac off 1 4 → gl.charincrement = 8 →
      (resolveFractions regionBytes gl).total
        = Int.tdiv (Int.tdiv (8 * regionBytes) 8 * 1) 4) := by
  refine ⟨?_, ?_, ?_, ?_, ?_⟩
  · intro h
    simp [resolveFractions, resolveTotal, h]
  · intro h
    simp [resolveFractions, List.getElem?_map, h, resolveVal]
  · intro h
    simp [resolveFractions, List.getElem?_map, h, resolveVal]
  · intro h
    simp [resolveFractions, List.getElem?_map, h, resolveVal]
  · intro h hinc
    simp [resolveFractions, resolveTotal, h, hinc]

/-- Witness for C7 at concrete inputs: a 4-byte region (L = 32 bits),
total `RGN_FRAC(1,4)`, increment 8, one fractional plane offset. -/
theorem C7_decode_graphics_fraction_arithmetic_witness :
    (resolveFractions 4
      ⟨8, 8, .frac 0 1 4, [.frac 16 1 2], [], [], 8⟩).total
      = Int.tdiv (Int.tdiv (8 * 4) 8 * 1) 4 ∧
    (resolveFractions 4
      ⟨8, 8, .frac 0 1 4, [.frac 16 1 2], [], [], 8⟩).planeoffset[0]?
      = some (16 + Int.tdiv ((8 * 4) * 1) 2) := by
  have h := C7_decode_graphics_fraction_arithmetic 4
    ⟨8, 8, .frac 0 1 4, [.frac 16 1 2], [], [], 8⟩ 16 1 2 0
  have h2 := C7_decode_graphics_fraction_arithmetic 4
    ⟨8, 8, .frac 0 1 4, [.frac 16 1 2], [], [], 8⟩ 0 1 4 0
  exact ⟨h2.2.2.2.2 rfl rfl, h.2.1 rfl⟩

/-- Loop invariants of the truncation loop, by induction on the fuel
(which dominates the number of remaining decrements). -/
theorem rawTruncGo_spec (base endB charincrement height yoff0 : Int) :
    ∀ (fuel : Nat) (t : Int), t.toNat ≤ fuel →
      rawTruncGo base endB charincrement height yoff0 fuel t ≤ t ∧
      (0 < t → 0 ≤ rawTruncGo base endB charincrement height yoff0 fuel t) ∧
      (t ≤ 0 → rawTruncGo base endB charincrement height yoff0 fuel t = t) ∧
      (0 < rawTruncGo base endB charincrement height yoff0 fuel t →
        raw_last_fits base endB charincrement height yoff0
          (rawTruncGo base endB charincrement height yoff0 fuel t) = true) ∧
      (∀ u, rawTruncGo base endB charincrement height yoff0 fuel t < u →
        u ≤ t →
        raw_last_fits base endB charincrement height yoff0 u = false) := by
  intro fuel
  induction fuel with
  | zero =>
    intro t ht
    have he : rawTruncGo base endB charincrement height yoff0 0 t = t := rfl
    rw [he]
    exact ⟨le_refl t, fun _ => by omega, fun _ => rfl,
      fun h => absurd h (by omega), fun u hu1 hu2 => absurd hu1 (by omega)⟩
  | succ n ih =>
    intro t ht
    by_cases h0 : 0 < t
    · by_cases hfit : raw_last_fits base endB charincrement height yoff0 t = true
      · have he : rawTruncGo base endB charincrement height yoff0 (n + 1) t = t := by
          simp only [rawTruncGo, if_pos h0, if_pos hfit]
        rw [he]
        exact ⟨le_refl t, fun _ => by omega, fun h => absurd h0 (by omega),
          fun _ => hfit, fun u hu1 hu2 => absurd hu1 (by omega)⟩
      · have he : rawTruncGo base endB charincrement height yoff0 (n + 1) t
            = rawTruncGo base endB charincrement height yoff0 n (t - 1) := by
          simp only [rawTruncGo, if_pos h0, if_neg hfit]
        obtain ⟨i1, i2, i3, i4, i5⟩ := ih (t - 1) (by omega)
        rw [he]
        refine ⟨by omega, fun _ => ?_, fun h => absurd h0 (by omega), i4, ?_⟩
        · by_cases h1 : 0 < t - 1
          · exact i2 h1
          · rw [i3 (by omega)]; omega
        · intro u hu1 hu2
          by_cases hut : u ≤ t - 1
          · exact i5 u hu1 hut
          · have hu : u = t := by omega
            rw [hu]
            exact Bool.not_eq_true _ ▸ hfit
    · have he : rawTruncGo base endB charincrement height yoff0 (n + 1) t = t := by
        simp only [rawTruncGo, if_neg h0]
      rw [he]
      exact ⟨le_refl t, fun h => absurd h h0, fun _ => rfl,
        fun h => absurd h (by omega), fun u hu1 hu2 => absurd hu1 (by omega)⟩

/-- C8: the raw-mode truncation never grows the count, never drives a
positive computed count below 0, leaves an already non-positive count
unchanged, stops at a count whose footprint fits (when the result is
positive), and decrements exactly while the footprint exceeds the region:
every count strictly between the result and the computed count fails to
fit. -/
theorem C8_decode_graphics_raw_truncation
    (base endB charincrement height yoff0 total : Int) :
    rawTruncate base endB charincrement height yoff0 total ≤ total ∧
    (0 < total →
      0 ≤ rawTruncate base endB charincrement height yoff0 total) ∧
    (total ≤ 0 →
      rawTruncate base endB charincrement height yoff0 total = total) ∧
    (0 < rawTruncate base endB charincrement height yoff0 total →
      raw_last_fits base endB charincrement height yoff0
        (rawTruncate base endB charincrement height yoff0 total) = true) ∧
    (∀ u, rawTruncate base endB charincrement height yoff0 total < u →
      u ≤ total →
      raw_last_fits base endB charincrement height yoff0 u = false) := by
  exact rawTruncGo_spec base endB charincrement height yoff0 total.toNat total
    (le_refl _)

/-- Witness for C8: `base = 0`, a 4-byte region, increment 16, height 8,
`yoffset[0] = 1`: the computed count 3 is truncated to 2, which fits. -/
theorem C8_decode_graphics_raw_truncation_witness :
    rawTruncate 0 4 16 8 1 3 ≤ 3 ∧
    (0 : Int) < 3 ∧ 0 ≤ rawTruncate 0 4 16 8 1 3 ∧
    rawTruncate 0 4 16 8 1 3 = 2 ∧
    raw_last_fits 0 4 16 8 1 3 = false := by
  have h := C8_decode_graphics_raw_truncation 0 4 16 8 1 3
  refine ⟨h.1, by decide, h.2.1 (by decide), by decide, ?_⟩
  exact h.2.2.2.2 3 (by decide) (by decide)

/-! ### C1: `init_machine` stage rollback (`mame.c:330-430`) -/

/-- The stage-scoped resources of `init_machine` that the goto cleanup
chain releases: the input subsystem (`code_init`/`code_close`), the live
input ports and the default input ports (`input_port_allocate`/
`input_port_free`). -/
inductive Res where
  | inputSys
  | livePorts
  | defaultPorts
deriving DecidableEq, Repr

/-- Resource acquisition/release events, in program order. -/
inductive REvent where
  | acq (r : Res)
  | rel (r : Res)
deriving DecidableEq, Repr

/-- Outcome flags of `init_machine`'s fallible sub-steps plus the two
driver-shape conditions (`gamedrv->input_ports`, `gamedrv->rom`); each is
an input decided by external collaborators or the driver table. -/
structure InitFlags where
  uistring_fails : Bool
  code_init_fails : Bool
  has_input_ports : Bool
  alloc_ports_fails : Bool
  alloc_ports_default_fails : Bool
  has_rom : Bool
  rom_load_fails : Bool
  memory_init_fails : Bool
deriving DecidableEq, Repr

/-- The release sequence of the `cant_init_memory`/`cant_load_roms` labels:
`input_port_free(Machine->input_ports_default)`,
`input_port_free(Machine->input_ports)`, `code_close()`.  When the driver
declares no ports, the two pointers are still NULL from the zeroed
`Machine`, and freeing a NULL port list releases nothing, so no release
event is recorded for them. -/
def rollbackAll (hasPorts : Bool) : List REvent :=
  (if hasPorts then [REvent.rel .defaultPorts, REvent.rel .livePorts] else [])
    ++ [REvent.rel .inputSys]

/-- Embedding of `init_machine` (`mame.c:330-430`): the returned `Int` is
the C return value, the list records every acquisition/release of the
stage's resources in program order (timers, CPUs, settings and the CHD
interface hook have no failure path and no stage-local release, so they
produce no events). -/
def init_machine (f : InitFlags) : Int × List REvent :=
  -- uistring_init != 0: goto cant_load_language_file (nothing acquired)
  if f.uistring_fails then (1, [])
  -- code_init != 0: goto cant_init_input (nothing acquired)
  else if f.code_init_fails then (1, [])
  else
    let ev0 := [REvent.acq .inputSys]
    -- input_port_allocate for Machine->input_ports fails:
    -- goto cant_allocate_input_ports: code_close()
    if f.has_input_ports ∧ f.alloc_ports_fails then
      (1, ev0 ++ [REvent.rel .inputSys])
    else
      let ev1 := ev0 ++ if f.has_input_ports then [REvent.acq .livePorts] else []
      -- input_port_allocate for Machine->input_ports_default fails:
      -- goto cant_allocate_input_ports_default: free live ports, code_close()
      if f.has_input_ports ∧ f.alloc_ports_default_fails then
        (1, ev1 ++ [REvent.rel .livePorts, REvent.rel .inputSys])
      else
        let ev2 := ev1 ++ if f.has_input_ports then [REvent.acq .defaultPorts] else []
        -- rom_load != 0: goto cant_load_roms
        if f.has_rom ∧ f.rom_load_fails then
          (1, ev2 ++ rollbackAll f.has_input_ports)
        -- !memory_init(): goto cant_init_memory
        else if f.memory_init_fails then
          (1, ev2 ++ rollbackAll f.has_input_ports)
        else
          (0, ev2)

/-- The resources acquired, in order, along an event trace. -/
def acquiredOf (ev : List REvent) : List Res :=
  ev.filterMap fun e => match e with | .acq r => some r | .rel _ => none

/-- The resources released, in order, along an event trace. -/
def releasedOf (ev : List REvent) : List Res :=
  ev.filterMap fun e => match e with | .acq _ => none | .rel r => some r

/-- Whether some fallible sub-step of `init_machine` fails. -/
def init_step_fails (f : InitFlags) : Bool :=
  f.uistring_fails || f.code_init_fails ||
  (f.has_input_ports && (f.alloc_ports_fails || f.alloc_ports_default_fails)) ||
  (f.has_rom && f.rom_load_fails) || f.memory_init_fails

/-- C1: whenever any sub-step fails, `init_machine` returns the non-zero
failure signal 1, and the resources it releases are exactly the stage
resources acquired so far, in exact reverse order of acquisition. -/
theorem C1_init_machine_rollback (f : InitFlags)
    (h : init_step_fails f = true) :
    (init_machine f).1 = 1 ∧
    releasedOf (init_machine f).2 = (acquiredOf (init_machine f).2).reverse := by
  obtain ⟨a, b, c, d, e, g, h1, h2⟩ := f
  revert a b c d e g h1 h2
  decide

/-- Witness for C1: driver with ports and ROMs, ROM loading fails. -/
theorem C1_init_machine_rollback_witness :
    init_step_fails ⟨false, false, true, false, false, true, true, false⟩ = true ∧
    (init_machine ⟨false, false, true, false, false, true, true, false⟩).1 = 1 ∧
    releasedOf (init_machine ⟨false, false, true, false, false, true, true, false⟩).2
      = (acquiredOf
          (init_machine ⟨false, false, true, false, false, true, true, false⟩).2).reverse := by
  have h := C1_init_machine_rollback
    ⟨false, false, true, false, false, true, true, false⟩ (by decide)
  exact ⟨by decide, h.1, h.2⟩

/-! ### C6: one diagnostic message per failed run
(`bail_and_print`, `mame.c:241-248`; `run_game`, `mame.c:263-316`;
`run_machine`, `mame.c:440-493`; `vh_open`, `mame.c:662-751`;
the direct `printf` in `decode_graphics`, `mame.c:916-921`) -/

/-- The `bailing` one-shot latch plus a count of diagnostic lines printed
(`printf` calls; `logerror` is the debug log, not a diagnostic). -/
structure BailState where
  bailing : Bool
  prints : Nat
deriving DecidableEq, Repr

/-- Embedding of `bail_and_print(message)`: print only if the latch is not
yet set. -/
def bail_and_print (st : BailState) : BailState :=
  if st.bailing then st else { bailing := true, prints := st.prints + 1 }

/-- Failure flags for the sub-steps of `run_game` outside `init_machine`,
plus the driver-shape conditions (`drv->gfxdecodeinfo`,
`drv->video_start`). -/
structure RunFlags where
  osd_init_fails : Bool
  palette_start_fails : Bool
  has_gfxdecode : Bool
  decode_gfx_fails : Bool
  create_display_fails : Bool
  scrbitmap_fails : Bool
  uifont_fails : Bool
  palette_init_fails : Bool
  has_video_start : Bool
  video_start_fails : Bool
  sound_start_fails : Bool
deriving DecidableEq, Repr

/-- Diagnostic behaviour of `vh_open` (`mame.c:662-751`): every failure
exits through the `goto` chain silently and returns 1, except a
`decode_graphics` failure, which sets `bailing = 1` and prints
unconditionally (`mame.c:917-921`) before `vh_open` returns 1. -/
def vh_open (g : RunFlags) (st : BailState) : Int × BailState :=
  if g.palette_start_fails then (1, st)
  else if g.has_gfxdecode ∧ g.decode_gfx_fails then (1, ⟨true, st.prints + 1⟩)
  else if g.create_display_fails then (1, st)
  else if g.scrbitmap_fails then (1, st)
  else if g.uifont_fails then (1, st)
  else if g.palette_init_fails then (1, st)
  else (0, st)

/-- Diagnostic behaviour of `run_machine` (`mame.c:440-493`): a failing
`vh_open`, driver `video_start` or `sound_start` each route through
`bail_and_print` and make `run_machine` return 1. -/
def run_machine (g : RunFlags) (st : BailState) : Int × BailState :=
  let v := vh_open g st
  if v.1 ≠ 0 then (1, bail_and_print v.2)
  else if g.has_video_start ∧ g.video_start_fails then (1, bail_and_print v.2)
  else if g.sound_start_fails then (1, bail_and_print v.2)
  else (0, v.2)

/-- Diagnostic behaviour of `run_game` (`mame.c:263-316`): after option
resolution succeeds (`init_game_options` always returns 0), `bailing` is
reset to 0; then `osd_init`, `init_machine` and `run_machine` failures
each route through `bail_and_print`; the cleanup calls
(`shutdown_machine`, `end_resource_tracking`, `osd_exit`, `vh_close`,
`tilemap_close`) print nothing. -/
def run_game (f : InitFlags) (g : RunFlags) : Int × BailState :=
  let st0 : BailState := ⟨false, 0⟩
  if g.osd_init_fails then (1, bail_and_print st0)
  else if (init_machine f).1 ≠ 0 then (1, bail_and_print st0)
  else
    let r := run_machine g st0
    if r.1 ≠ 0 then (1, bail_and_print r.2)
    else (0, r.2)

/-- C6: every run prints at most one diagnostic message, and a run that
returns failure prints exactly one, no matter which and how many
sub-steps fail. -/
theorem C6_one_diagnostic_per_failed_run (f : InitFlags) (g : RunFlags) :
    (run_game f g).2.prints ≤ 1 ∧
    ((run_game f g).1 ≠ 0 → (run_game f g).2.prints = 1) := by
  have h01 : (init_machine f).1 = 0 ∨ (init_machine f).1 = 1 := by
    obtain ⟨a, b, c, d, e, g', h1, h2⟩ := f
    revert a b c d e g' h1 h2
    decide
  obtain ⟨a, b, c, d, e, g1, g2, g3, g4, g5, g6⟩ := g
  rcases h01 with h | h <;>
    · simp only [run_game, h]
      revert a b c d e g1 g2 g3 g4 g5 g6
      decide

/-- Witness for C6: a run where both the audio start and (after it) the
driver video start would fail still prints exactly one message. -/
theorem C6_one_diagnostic_per_failed_run_witness :
    (run_game ⟨false, false, true, false, false, true, false, false⟩
      ⟨false, false, true, false, false, false, false, false, true, true, true⟩).1 ≠ 0 ∧
    (run_game ⟨false, false, true, false, false, true, false, false⟩
      ⟨false, false, true, false, false, false, false, false, true, true, true⟩).2.prints
      = 1 := by
  have h := C6_one_diagnostic_per_failed_run
    ⟨false, false, true, false, false, true, false, false⟩
    ⟨false, false, true, false, false, false, false, false, true, true, true⟩
  exact ⟨by decide, h.2 (by decide)⟩

/-! ### C2: session-state zeroing at the start of `run_game`
(`mame.c:263-275`, `expand_machine_driver` at `mame.c:649-654`) -/

/-- A C object viewed as its bytes.  `struct RunningMachine` contains, at
minimum, the pointer fields `gamedrv`, `drv`, `input_ports`,
`input_ports_default`, `scrbitmap`, `uifont`, ... that `mame.c` itself
dereferences, so its size strictly exceeds the size of one pointer. -/
def CBytes := List Nat

/-- Behaviour of `memset(p, 0, n)` on an object viewed as bytes: zero the first `n`
bytes, leave the rest untouched. -/
def memsetZero (n : Nat) (m : List Nat) : List Nat :=
  m.mapIdx fun i b => if i < n then 0 else b

/-- Value of `sizeof(struct RunningMachine *)` on an LP64 platform. -/
def sizeof_machine_ptr : Nat := 8

/-- The cleaning step at the top of `run_game` (`mame.c:270`):
`memset(Machine, 0, sizeof(Machine));` -- `Machine` is a
`struct RunningMachine *`, so `sizeof(Machine)` is the size of the
POINTER, not of the struct: only the first pointer-size bytes of the
active machine object are cleared. -/
def run_game_clean_machine (machineBytes : List Nat) : List Nat :=
  memsetZero sizeof_machine_ptr machineBytes

/-- Embedding of `expand_machine_driver` (`mame.c:649-654`): zero the output
configuration buffer (`memset(output, 0, sizeof(*output))` -- here the
full struct size, correctly), then invoke the driver's constructor
callback on it.  This half of the claim is faithful to the code. -/
def expand_machine_driver (constructor : List Nat → List Nat)
    (outputSize : Nat) : List Nat :=
  constructor (List.replicate outputSize 0)

/-- C2 is a code bug: `run_game` intends to clear the whole session
machine-state object ("first give the machine a good cleaning") but
`memset(Machine, 0, sizeof(Machine))` clears only `sizeof` a POINTER
(8 bytes) of it, because `Machine` is `struct RunningMachine *` and the
intended operand is `sizeof(*Machine)`.  Evaluated at a 24-byte machine
object carrying a stale nonzero byte beyond the first 8 bytes:
the stale bytes survive the "cleaning", while the configuration half
(`expand_machine_driver`) really does start from an all-zero buffer. -/
theorem C2_run_game_machine_zeroing_bug :
    run_game_clean_machine (List.replicate 24 7)
      ≠ List.replicate 24 0 ∧
    run_game_clean_machine (List.replicate 24 7)
      = List.replicate 8 0 ++ List.replicate 16 7 ∧
    expand_machine_driver (fun cfg => cfg) 24 = List.replicate 24 0 := by
  refine ⟨?_, ?_, rfl⟩ <;> decide
